import Mathlib

/-!
Verification of `axidraw-over-tcp` (src/main.rs) against its natural-language
specification.  The Rust program is shallowly embedded: strings are `List Char`,
byte buffers are `List Nat`, the mpsc channel is a FIFO `List`, the serial
device is a stream of read results, and the relay worker is a function from a
command list and a device stream to a trace of serial events.
-/

namespace AxidrawOverTcp

/-! ## Byte-level UTF-8 decoding, modelling Rust's `String::from_utf8`.

`String::from_utf8(bytes)` succeeds exactly when `bytes` is well-formed UTF-8
(no overlong encodings, no surrogate code points, nothing above U+10FFFF).
`utf8Decode` returns `none` exactly on the inputs where Rust returns `Err`. -/

/-- A UTF-8 continuation byte: `0x80 ≤ b ≤ 0xBF`. -/
def isCont (b : Nat) : Bool := 0x80 ≤ b && b ≤ 0xBF

/-- Decode a byte list as UTF-8, as `String::from_utf8` does in
`handler` (main.rs line 103): `none` models the `Err` branch. -/
def utf8Decode : List Nat → Option (List Char)
  | [] => some []
  | b :: rest =>
    if b < 0x80 then
      (utf8Decode rest).map (fun t => Char.ofNat b :: t)
    else if 0xC2 ≤ b && b ≤ 0xDF then
      match rest with
      | c1 :: rest1 =>
        if isCont c1 then
          (utf8Decode rest1).map
            (fun t => Char.ofNat ((b - 0xC0) * 0x40 + (c1 - 0x80)) :: t)
        else none
      | [] => none
    else if b == 0xE0 then
      match rest with
      | c1 :: c2 :: rest2 =>
        if (0xA0 ≤ c1 && c1 ≤ 0xBF) && isCont c2 then
          (utf8Decode rest2).map
            (fun t => Char.ofNat ((b - 0xE0) * 0x1000 + (c1 - 0x80) * 0x40 + (c2 - 0x80)) :: t)
        else none
      | _ => none
    else if (0xE1 ≤ b && b ≤ 0xEC) || b == 0xEE || b == 0xEF then
      match rest with
      | c1 :: c2 :: rest2 =>
        if isCont c1 && isCont c2 then
          (utf8Decode rest2).map
            (fun t => Char.ofNat ((b - 0xE0) * 0x1000 + (c1 - 0x80) * 0x40 + (c2 - 0x80)) :: t)
        else none
      | _ => none
    else if b == 0xED then
      match rest with
      | c1 :: c2 :: rest2 =>
        if (0x80 ≤ c1 && c1 ≤ 0x9F) && isCont c2 then
          (utf8Decode rest2).map
            (fun t => Char.ofNat ((b - 0xE0) * 0x1000 + (c1 - 0x80) * 0x40 + (c2 - 0x80)) :: t)
        else none
      | _ => none
    else if b == 0xF0 then
      match rest with
      | c1 :: c2 :: c3 :: rest3 =>
        if (0x90 ≤ c1 && c1 ≤ 0xBF) && isCont c2 && isCont c3 then
          (utf8Decode rest3).map
            (fun t => Char.ofNat ((b - 0xF0) * 0x40000 + (c1 - 0x80) * 0x1000 +
              (c2 - 0x80) * 0x40 + (c3 - 0x80)) :: t)
        else none
      | _ => none
    else if 0xF1 ≤ b && b ≤ 0xF3 then
      match rest with
      | c1 :: c2 :: c3 :: rest3 =>
        if isCont c1 && isCont c2 && isCont c3 then
          (utf8Decode rest3).map
            (fun t => Char.ofNat ((b - 0xF0) * 0x40000 + (c1 - 0x80) * 0x1000 +
              (c2 - 0x80) * 0x40 + (c3 - 0x80)) :: t)
        else none
      | _ => none
    else if b == 0xF4 then
      match rest with
      | c1 :: c2 :: c3 :: rest3 =>
        if (0x80 ≤ c1 && c1 ≤ 0x8F) && isCont c2 && isCont c3 then
          (utf8Decode rest3).map
            (fun t => Char.ofNat ((b - 0xF0) * 0x40000 + (c1 - 0x80) * 0x1000 +
              (c2 - 0x80) * 0x40 + (c3 - 0x80)) :: t)
        else none
      | _ => none
    else none

/-! ## The ingestion endpoint (`handler`, main.rs lines 99-129).

The handler receives the raw body bytes and a `Sender` onto the command
channel.  The channel is modelled as the FIFO list `queue`; `Sender::send`
appends to it.  The `WithStatus` reply is modelled by `Status`. -/

/-- HTTP status of the handler's reply (only these two occur). -/
inductive Status where
  | ok
  | badRequest
  deriving DecidableEq, Repr

/-- The `for command in body_bytes.split('\n') { if !command.is_empty { send } }`
loop of `handler` (main.rs lines 110-116): walk the segments in split order,
appending each non-empty one to the FIFO queue. -/
def enqueueSegments (queue : List (List Char)) : List (List Char) → List (List Char)
  | [] => queue
  | seg :: rest =>
    if seg.isEmpty then enqueueSegments queue rest
    else enqueueSegments (queue ++ [seg]) rest

/-- The body of `handler` (main.rs lines 99-129): decode the bytes as UTF-8
(400 on failure), reject bodies containing `'\r'` with 400, otherwise split on
`'\n'`, enqueue the non-empty segments in order, and reply 200. Returns the
reply status and the queue after the request. -/
def handler (commandBytes : List Nat) (queue : List (List Char)) :
    Status × List (List Char) :=
  match utf8Decode commandBytes with
  | some bodyBytes =>
    if bodyBytes.contains '\r' then
      (Status.badRequest, queue)
    else
      (Status.ok, enqueueSegments queue (bodyBytes.splitOn '\n'))
  | none => (Status.badRequest, queue)

example : utf8Decode [0x61, 0x0A, 0x62] = some ['a', '\n', 'b'] := by decide
example : utf8Decode [0xFF] = none := by decide
example : utf8Decode [0xC3, 0xA9] = some ['é'] := by decide
example : handler [0x61, 0x0A, 0x62, 0x0A, 0x0A, 0x63] [] =
    (Status.ok, [['a'], ['b'], ['c']]) := by decide
example : handler [0x61, 0x0D, 0x62] [['q']] = (Status.badRequest, [['q']]) := by decide

/-! ## The serial exchange (`send_to_serial_and_wait_for_ok`, main.rs lines 138-156)
and the relay worker loop (main.rs lines 43-47).

The device is modelled by the stream of results that successive calls to
`serial_reader_lines.next().unwrap()` would produce: each element is
`Except.ok line` (a complete line was read, trailing `\n`/`\r\n` stripped by
`BufRead::lines`) or `Except.error ()` (the read failed, e.g. timed out).  The
`.unwrap()` panics if `next()` returns `None`; exhausting the finite stream
models that panic.  The observable interaction with the device is recorded as
a trace of `SerialEvent`s. -/

deriving instance DecidableEq for Except

/-- One observable interaction with the serial device. -/
inductive SerialEvent where
  | write (bytes : List Char)
  | flush
  | read (result : Except Unit (List Char))
  deriving DecidableEq, Repr

/-- The read loop of `send_to_serial_and_wait_for_ok` (main.rs lines 149-153):
`loop { if let Ok(response) = serial_reader_lines.next().unwrap() { break response } }`.
Returns the line it breaks on and the unconsumed remainder of the stream, or
`none` when the stream is exhausted (the `.unwrap()` panic). -/
def readUntilOk : List (Except Unit (List Char)) →
    Option (List Char × List (Except Unit (List Char)))
  | [] => none
  | Except.ok line :: rest => some (line, rest)
  | Except.error _ :: rest => readUntilOk rest

/-- The read events performed by the read loop: one `read` per attempted
`next()`, stopping at the first `Except.ok` (total even when the loop ends in
a panic, in which case every attempted read had failed). -/
def readUntilOkEvents : List (Except Unit (List Char)) → List SerialEvent
  | [] => []
  | Except.ok line :: _ => [SerialEvent.read (Except.ok line)]
  | Except.error e :: rest => SerialEvent.read (Except.error e) :: readUntilOkEvents rest

/-- The trace of `send_to_serial_and_wait_for_ok` (main.rs lines 138-156):
`write_all` of `format!("{}\r", command)`, then `flush`, then the read loop. -/
def sendTrace (command : List Char) (stream : List (Except Unit (List Char))) :
    List SerialEvent :=
  SerialEvent.write (command ++ ['\r']) :: SerialEvent.flush :: readUntilOkEvents stream

/-- The relay worker loop spawned in `main` (main.rs lines 43-47): receive each
queued command in FIFO order and run `send_to_serial_and_wait_for_ok` on it; the
whole-trace view.  If a command's read loop panics (stream exhausted), the
worker dies and no further command is processed. -/
def relayRun (commands : List (List Char)) (stream : List (Except Unit (List Char))) :
    List SerialEvent :=
  match commands with
  | [] => []
  | command :: rest =>
    match readUntilOk stream with
    | none => sendTrace command stream
    | some (_, streamRest) => sendTrace command stream ++ relayRun rest streamRest

/-- The command texts written to the device, in trace order. -/
def writesOf : List SerialEvent → List (List Char)
  | [] => []
  | SerialEvent.write bytes :: rest => bytes :: writesOf rest
  | _ :: rest => writesOf rest

/-- Number of successful (`Except.ok`) reads the device stream offers. -/
def okCount : List (Except Unit (List Char)) → Nat
  | [] => 0
  | Except.ok _ :: rest => okCount rest + 1
  | Except.error _ :: rest => okCount rest

/-! ## Device discovery (`get_serial_port`, main.rs lines 61-94). -/

/-- `serialport::UsbPortInfo` (the fields of the Rust struct; only `product`
is consulted by `port_filter`). -/
structure UsbPortInfo where
  vid : Nat
  pid : Nat
  serialNumber : Option (List Char)
  manufacturer : Option (List Char)
  product : Option (List Char)
  deriving DecidableEq, Repr

/-- `serialport::SerialPortType`. -/
inductive SerialPortType where
  | usbPort (info : UsbPortInfo)
  | pciPort
  | bluetoothPort
  | unknown
  deriving DecidableEq, Repr

/-- `serialport::SerialPortInfo`: a discovered candidate endpoint. -/
structure SerialPortInfo where
  portName : List Char
  portType : SerialPortType
  deriving DecidableEq, Repr

/-- The marker substring `"EiBotBoard"` from main.rs line 70. -/
def eiBotBoardMarker : List Char := ['E', 'i', 'B', 'o', 't', 'B', 'o', 'a', 'r', 'd']

/-- Rust's `str::contains(pattern)` for string patterns: `needle` occurs as a
contiguous substring of `haystack`. -/
def containsSub (needle : List Char) : List Char → Bool
  | [] => needle.isEmpty
  | c :: rest => List.isPrefixOf needle (c :: rest) || containsSub needle rest

/-- The `port_filter` closure of `get_serial_port` (main.rs lines 62-74): with
an explicit `device` name, accept exactly the endpoint with that port name;
otherwise accept a USB endpoint whose product string (defaulted to `""` when
absent) contains `"EiBotBoard"`. -/
def portFilter (device : Option (List Char)) (portInfo : SerialPortInfo) : Bool :=
  match device with
  | some device => portInfo.portName == device
  | none =>
    match portInfo.portType with
    | SerialPortType.usbPort usbPortInfo =>
      containsSub eiBotBoardMarker (usbPortInfo.product.getD [])
    | _ => false

/-- `serialport::available_ports().unwrap_or_default()` (main.rs lines 77-78):
an enumeration error is replaced by the empty port list. -/
def unwrapOrDefault : Except Unit (List SerialPortInfo) → List SerialPortInfo
  | Except.ok ports => ports
  | Except.error _ => []

/-- `sleep(Duration::from_secs(1))` (main.rs line 86): the fixed retry
interval, in seconds. -/
def retrySleepSecs : Nat := 1

/-- The discovery loop of `get_serial_port` (main.rs lines 76-88), run against
a finite prefix `scans` of the successive `available_ports()` results.  Each
scan looks for the first matching port; on failure the loop sleeps
`retrySleepSecs` and rescans.  Returns the matched port together with the list
of sleep durations performed before the match, or `none` when every supplied
scan failed (the loop is still running, having slept once per failed scan). -/
def getSerialPortLoop (device : Option (List Char)) :
    List (Except Unit (List SerialPortInfo)) → Option (SerialPortInfo × List Nat)
  | [] => none
  | scan :: rest =>
    match (unwrapOrDefault scan).find? (portFilter device) with
    | some portInfo => some (portInfo, [])
    | none =>
      (getSerialPortLoop device rest).map
        (fun found => (found.1, retrySleepSecs :: found.2))

/-- An open serial handle as produced by
`serialport::new(&port_info.port_name, 9600).timeout(Duration::from_secs(1)).open()`. -/
structure OpenedPort where
  portName : List Char
  baudRate : Nat
  timeoutSecs : Nat
  deriving DecidableEq, Repr

/-- Outcome of `get_serial_port` once a candidate has matched. -/
inductive LocateOutcome where
  | opened (port : OpenedPort)
  | panicked (message : List Char)
  deriving DecidableEq, Repr

/-- The panic message `"Could not create port on {}"` (main.rs line 93). -/
def couldNotCreateMsg (portName : List Char) : List Char :=
  ('C' :: 'o' :: 'u' :: 'l' :: 'd' :: ' ' :: 'n' :: 'o' :: 't' :: ' ' ::
    'c' :: 'r' :: 'e' :: 'a' :: 't' :: 'e' :: ' ' :: 'p' :: 'o' :: 'r' :: 't' ::
    ' ' :: 'o' :: 'n' :: ' ' :: []) ++ portName

/-- `get_serial_port` (main.rs lines 61-94): run the discovery loop, then open
the matched candidate at 9600 baud with a 1-second timeout, panicking with a
diagnostic naming the port when the open fails.  `openOk` tells whether opening
a given port name succeeds; `none` means the loop has not yet found a match. -/
def getSerialPort (device : Option (List Char))
    (scans : List (Except Unit (List SerialPortInfo)))
    (openOk : List Char → Bool) : Option (LocateOutcome × List Nat) :=
  (getSerialPortLoop device scans).map fun found =>
    ( if openOk found.1.portName then
        LocateOutcome.opened ⟨found.1.portName, 9600, 1⟩
      else
        LocateOutcome.panicked (couldNotCreateMsg found.1.portName),
      found.2 )

example : readUntilOk [Except.error (), Except.ok ['O', 'K']] =
    some (['O', 'K'], []) := by decide
example : writesOf (relayRun [['a'], ['b']] [Except.ok ['O', 'K'], Except.ok ['O', 'K']]) =
    [['a', '\r'], ['b', '\r']] := by decide
example : portFilter none ⟨['x'], SerialPortType.usbPort ⟨1, 2, none, none,
    some (['a'] ++ eiBotBoardMarker ++ ['b'])⟩⟩ = true := by decide
example : portFilter (some ['x']) ⟨['x'], SerialPortType.pciPort⟩ = true := by decide

/-! ## Helper lemmas -/

theorem contains_iff_mem (t : List Char) (c : Char) : t.contains c = true ↔ c ∈ t := by
  simp [List.contains]

theorem containsSub_correct (needle haystack : List Char) :
    containsSub needle haystack = true ↔ needle <:+: haystack := by
  induction haystack with
  | nil => simp [containsSub, List.isEmpty_iff]
  | cons c rest ih =>
    rw [containsSub, List.infix_cons_iff]
    simp [ih]

theorem enqueueSegments_eq (segments queue : List (List Char)) :
    enqueueSegments queue segments =
      queue ++ segments.filter (fun seg => !seg.isEmpty) := by
  induction segments generalizing queue with
  | nil => simp [enqueueSegments]
  | cons seg rest ih =>
    rw [enqueueSegments]
    by_cases h : seg.isEmpty
    · simp [h, ih]
    · simp [h, ih]

/-! ## Claim theorems: the ingestion endpoint -/

/-- C3: for every POST /batch-queue request body, the endpoint responds
400 Bad Request and leaves the queue unchanged (no partial enqueue) if and
only if the body is not valid UTF-8 or the decoded text contains a
carriage-return character. -/
theorem batchQueueRejectsIffInvalid (body : List Nat) (queue : List (List Char)) :
    ((handler body queue).1 = Status.badRequest ∧ (handler body queue).2 = queue) ↔
      (utf8Decode body = none ∨ ∃ t, utf8Decode body = some t ∧ '\r' ∈ t) := by
  unfold handler
  cases hd : utf8Decode body with
  | none => simp
  | some t =>
    dsimp only
    by_cases hr : t.contains '\r' = true
    · rw [if_pos hr]
      exact ⟨fun _ => Or.inr ⟨t, rfl, (contains_iff_mem t '\r').mp hr⟩,
        fun _ => ⟨rfl, rfl⟩⟩
    · rw [if_neg hr]
      constructor
      · intro h
        exact absurd h.1 (by simp)
      · rintro (h | ⟨t', ht', hmem⟩)
        · exact absurd h (by simp)
        · cases Option.some.inj ht'
          exact absurd ((contains_iff_mem t '\r').mpr hmem) hr

/-- C4: for every valid (UTF-8, carriage-return-free) body, the endpoint
splits the text on line-feed, enqueues exactly the non-empty segments in split
order onto the queue, drops empty segments, and responds 200 OK. -/
theorem batchQueueEnqueuesNonEmptySegments (body : List Nat) (queue : List (List Char))
    (t : List Char) (hdec : utf8Decode body = some t)
    (hcr : t.contains '\r' = false) :
    handler body queue =
      (Status.ok, queue ++ (t.splitOn '\n').filter (fun seg => !seg.isEmpty)) := by
  unfold handler
  rw [hdec]
  simp only [hcr, Bool.false_eq_true, if_false]
  rw [enqueueSegments_eq]

/-- C4 witness: the body `"a\nb\n\nc"` enqueues exactly `a`, `b`, `c`. -/
theorem batchQueueEnqueuesNonEmptySegments_witness :
    handler [0x61, 0x0A, 0x62, 0x0A, 0x0A, 0x63] [] =
      (Status.ok, [['a'], ['b'], ['c']]) :=
  (batchQueueEnqueuesNonEmptySegments [0x61, 0x0A, 0x62, 0x0A, 0x0A, 0x63] []
    ['a', '\n', 'b', '\n', '\n', 'c'] (by decide) (by decide)).trans (by decide)

/-! ## Claim theorems: the discovery filter -/

/-- The discovery-filter acceptance condition as the specification words it:
with an explicit device name, the endpoint's port name equals that name exactly
(USB product heuristics ignored); with no explicit name, the endpoint is a USB
port whose advertised product string contains the `"EiBotBoard"` marker. -/
def portFilterSpec (device : Option (List Char)) (portInfo : SerialPortInfo) : Prop :=
  match device with
  | some name => portInfo.portName = name
  | none =>
    ∃ usbInfo product, portInfo.portType = SerialPortType.usbPort usbInfo ∧
      usbInfo.product = some product ∧ eiBotBoardMarker <:+: product

/-- C7: the discovery filter accepts a serial endpoint if and only if the
spec's acceptance condition holds: exact name match when an explicit device
name is supplied, otherwise a USB port whose product string contains
`"EiBotBoard"`; every non-USB or non-matching endpoint is rejected. -/
theorem portFilterMatchesSpec (device : Option (List Char)) (portInfo : SerialPortInfo) :
    portFilter device portInfo = true ↔ portFilterSpec device portInfo := by
  cases device with
  | some name => simp [portFilter, portFilterSpec]
  | none =>
    cases hty : portInfo.portType with
    | usbPort usbInfo =>
      cases hp : usbInfo.product with
      | none =>
        simp [portFilter, portFilterSpec, hty, hp, containsSub, eiBotBoardMarker]
      | some product =>
        simp [portFilter, portFilterSpec, hty, hp, containsSub_correct]
    | pciPort => simp [portFilter, portFilterSpec, hty]
    | bluetoothPort => simp [portFilter, portFilterSpec, hty]
    | unknown => simp [portFilter, portFilterSpec, hty]

/-! ## Claim theorems: the serial relay -/

/-- State machine checking the single-in-flight discipline over a trace:
`pending` records an unacknowledged write; a new write is admissible only when
no write is pending, and only a successful (`Except.ok`) read clears the
pending flag. -/
def noOverlapAux (pending : Bool) : List SerialEvent → Bool
  | [] => true
  | SerialEvent.write _ :: rest => !pending && noOverlapAux true rest
  | SerialEvent.flush :: rest => noOverlapAux pending rest
  | SerialEvent.read (Except.ok _) :: rest => noOverlapAux false rest
  | SerialEvent.read (Except.error _) :: rest => noOverlapAux pending rest

/-- A trace respects the single-in-flight discipline: every write after the
first is preceded by a completed (successful) acknowledgment read. -/
def singleInFlight (trace : List SerialEvent) : Bool :=
  noOverlapAux false trace

theorem noOverlapAux_of_readUntilOk_none (stream : List (Except Unit (List Char)))
    (pending : Bool) (h : readUntilOk stream = none) :
    noOverlapAux pending (readUntilOkEvents stream) = true := by
  induction stream generalizing pending with
  | nil => rfl
  | cons r rest ih =>
    cases r with
    | ok line => exact absurd h (by simp [readUntilOk])
    | error e => exact ih pending (by simpa [readUntilOk] using h)

theorem noOverlapAux_of_readUntilOk_some (stream : List (Except Unit (List Char)))
    (line : List Char) (streamRest : List (Except Unit (List Char)))
    (h : readUntilOk stream = some (line, streamRest)) (pending : Bool)
    (t : List SerialEvent) :
    noOverlapAux pending (readUntilOkEvents stream ++ t) = noOverlapAux false t := by
  induction stream generalizing pending with
  | nil => exact absurd h (by simp [readUntilOk])
  | cons r rest ih =>
    cases r with
    | ok l => rfl
    | error e => exact ih (by simpa [readUntilOk] using h) pending

/-- C1: at every point in execution there is at most one command write/read
exchange in flight: on every trace the relay worker can produce, a new write
occurs only after the acknowledgment read of the previous write has completed
successfully. -/
theorem relaySingleInFlight (commands : List (List Char))
    (stream : List (Except Unit (List Char))) :
    singleInFlight (relayRun commands stream) = true := by
  unfold singleInFlight
  induction commands generalizing stream with
  | nil => rfl
  | cons command rest ih =>
    rw [relayRun]
    cases h : readUntilOk stream with
    | none =>
      show noOverlapAux false (sendTrace command stream) = true
      rw [sendTrace]
      show noOverlapAux true (readUntilOkEvents stream) = true
      exact noOverlapAux_of_readUntilOk_none stream true h
    | some found =>
      show noOverlapAux false (sendTrace command stream ++ relayRun rest found.2) = true
      rw [sendTrace]
      show noOverlapAux true (readUntilOkEvents stream ++ relayRun rest found.2) = true
      rw [noOverlapAux_of_readUntilOk_some stream found.1 found.2 (by simpa using h)]
      exact ih found.2

theorem writesOf_append (l m : List SerialEvent) :
    writesOf (l ++ m) = writesOf l ++ writesOf m := by
  induction l with
  | nil => rfl
  | cons e rest ih =>
    cases e with
    | write bytes => simp [writesOf, ih]
    | flush => simp [writesOf, ih]
    | read r => simp [writesOf, ih]

theorem writesOf_readUntilOkEvents (stream : List (Except Unit (List Char))) :
    writesOf (readUntilOkEvents stream) = [] := by
  induction stream with
  | nil => rfl
  | cons r rest ih =>
    cases r with
    | ok line => rfl
    | error e => simpa [readUntilOkEvents, writesOf] using ih

theorem okCount_of_readUntilOk_none (stream : List (Except Unit (List Char)))
    (h : readUntilOk stream = none) : okCount stream = 0 := by
  induction stream with
  | nil => rfl
  | cons r rest ih =>
    cases r with
    | ok line => exact absurd h (by simp [readUntilOk])
    | error e =>
      rw [okCount]
      exact ih (by simpa [readUntilOk] using h)

theorem okCount_of_readUntilOk_some (stream : List (Except Unit (List Char)))
    (line : List Char) (streamRest : List (Except Unit (List Char)))
    (h : readUntilOk stream = some (line, streamRest)) :
    okCount stream = okCount streamRest + 1 := by
  induction stream with
  | nil => exact absurd h (by simp [readUntilOk])
  | cons r rest ih =>
    cases r with
    | ok l =>
      rw [readUntilOk] at h
      cases Option.some.inj h
      rfl
    | error e =>
      rw [okCount]
      exact ih (by simpa [readUntilOk] using h)

/-- FIFO delivery of the relay worker: when the device acknowledges every
command, the writes on the trace are exactly the queued commands, each with
its `'\r'` terminator, in queue order. -/
theorem fifoWrites (commands : List (List Char))
    (stream : List (Except Unit (List Char)))
    (h : commands.length ≤ okCount stream) :
    writesOf (relayRun commands stream) =
      commands.map (fun command => command ++ ['\r']) := by
  induction commands generalizing stream with
  | nil => rfl
  | cons command rest ih =>
    rw [relayRun]
    cases hr : readUntilOk stream with
    | none =>
      rw [okCount_of_readUntilOk_none stream hr] at h
      exact absurd h (by simp)
    | some found =>
      show writesOf (sendTrace command stream ++ relayRun rest found.2) = _
      rw [writesOf_append, sendTrace]
      show (command ++ ['\r']) :: (writesOf (readUntilOkEvents stream) ++
        writesOf (relayRun rest found.2)) = _
      rw [writesOf_readUntilOkEvents]
      have hcount := okCount_of_readUntilOk_some stream found.1 found.2 (by simpa using hr)
      rw [List.map_cons]
      rw [ih found.2 (by rw [hcount] at h; exact Nat.le_of_succ_le_succ (by simpa using h))]
      simp

theorem handler_queue_append (body : List Nat) (queue : List (List Char)) :
    (handler body queue).2 = queue ++ (handler body []).2 := by
  unfold handler
  cases utf8Decode body with
  | none => simp
  | some t =>
    dsimp only
    by_cases hr : t.contains '\r' = true
    · rw [if_pos hr, if_pos hr]
      simp
    · rw [if_neg hr, if_neg hr]
      dsimp only
      rw [enqueueSegments_eq, enqueueSegments_eq]
      simp

/-- C2: the relay delivers every queued command sequence to the device in
exactly the enqueue (FIFO) order, and the queue produced by two sequential
non-interleaved requests is the concatenation of their per-request command
lists, so those commands are relayed in the concatenation of the per-request
orders. -/
theorem relayFifoAcrossRequests (commands : List (List Char)) (b1 b2 : List Nat)
    (stream1 stream2 : List (Except Unit (List Char)))
    (h1 : commands.length ≤ okCount stream1)
    (h2 : ((handler b1 []).2 ++ (handler b2 []).2).length ≤ okCount stream2) :
    writesOf (relayRun commands stream1) =
      commands.map (fun command => command ++ ['\r']) ∧
    (handler b2 (handler b1 []).2).2 = (handler b1 []).2 ++ (handler b2 []).2 ∧
    writesOf (relayRun (handler b2 (handler b1 []).2).2 stream2) =
      ((handler b1 []).2 ++ (handler b2 []).2).map
        (fun command => command ++ ['\r']) := by
  refine ⟨fifoWrites commands stream1 h1, handler_queue_append b2 _, ?_⟩
  rw [handler_queue_append b2 _]
  exact fifoWrites _ stream2 h2

/-- C2 witness: bodies `"a"` and `"b"` relayed over a device that acknowledges
twice. -/
theorem relayFifoAcrossRequests_witness :
    writesOf (relayRun [['a']] [Except.ok ['O', 'K']]) =
      [['a']].map (fun command => command ++ ['\r']) ∧
    (handler [0x62] (handler [0x61] []).2).2 =
      (handler [0x61] []).2 ++ (handler [0x62] []).2 ∧
    writesOf (relayRun (handler [0x62] (handler [0x61] []).2).2
        [Except.ok ['O', 'K'], Except.ok ['O', 'K']]) =
      ((handler [0x61] []).2 ++ (handler [0x62] []).2).map
        (fun command => command ++ ['\r']) :=
  relayFifoAcrossRequests [['a']] [0x61] [0x62] [Except.ok ['O', 'K']]
    [Except.ok ['O', 'K'], Except.ok ['O', 'K']] (by decide) (by decide)

/-- C5 counterexample: the claim that the acknowledgment-wait stops only on a
non-blank line fails: on the device stream whose first read yields the blank
line `""`, the read loop of `send_to_serial_and_wait_for_ok` stops and takes
the blank line as the acknowledgment. -/
theorem ackAwaitNonBlank_counterexample :
    ¬ (∀ (stream : List (Except Unit (List Char))) (line : List Char)
        (streamRest : List (Except Unit (List Char))),
        readUntilOk stream = some (line, streamRest) → line.isEmpty = false) := by
  intro h
  exact absurd (h [Except.ok []] [] [] (by decide)) (by decide)

/-- C5 (amended): while awaiting acknowledgment, the relay reads until a read
succeeds, skipping exactly the failed/incomplete (`Err`) reads; it stops on
the first successfully read line — whatever that line is, including the blank
line — and does not stop while every read fails. -/
theorem ackAwaitStopsOnFirstSuccessfulRead (stream : List (Except Unit (List Char)))
    (line : List Char) (streamRest : List (Except Unit (List Char))) :
    readUntilOk stream = some (line, streamRest) ↔
      ∃ failed : List Unit,
        stream = failed.map Except.error ++ Except.ok line :: streamRest := by
  induction stream with
  | nil =>
    constructor
    · intro h
      exact absurd h (by simp [readUntilOk])
    · rintro ⟨failed, hf⟩
      cases failed <;> simp at hf
  | cons r rest ih =>
    cases r with
    | ok l =>
      rw [readUntilOk]
      constructor
      · intro h
        cases Option.some.inj h
        exact ⟨[], rfl⟩
      · rintro ⟨failed, hf⟩
        cases failed with
        | nil =>
          simp only [List.map_nil, List.nil_append, List.cons.injEq] at hf
          rw [(Except.ok.inj hf.1 : l = line), hf.2]
        | cons u us => simp at hf
    | error e =>
      rw [readUntilOk, ih]
      constructor
      · rintro ⟨failed, hf⟩
        exact ⟨() :: failed, by simp [hf]⟩
      · rintro ⟨failed, hf⟩
        cases failed with
        | nil => simp at hf
        | cons u us =>
          simp only [List.map_cons, List.cons_append, List.cons.injEq] at hf
          exact ⟨us, hf.2⟩

theorem readUntilOkEvents_allReads (stream : List (Except Unit (List Char))) :
    ∀ e ∈ readUntilOkEvents stream, ∃ r, e = SerialEvent.read r := by
  induction stream with
  | nil =>
    intro e he
    cases he
  | cons x rest ih =>
    cases x with
    | ok line =>
      intro e he
      rw [readUntilOkEvents] at he
      cases he with
      | head => exact ⟨_, rfl⟩
      | tail _ h => cases h
    | error u =>
      intro e he
      rw [readUntilOkEvents] at he
      cases he with
      | head => exact ⟨_, rfl⟩
      | tail _ h => exact ih e h

/-- C6: for every command taken from the queue, the exchange writes exactly
the command's bytes followed by a single `'\r'` terminator (one write event,
those bytes precisely), then flushes, and everything after the flush is a
read: the flush happens before the acknowledgment reading begins. -/
theorem sendWritesCommandWithTerminatorThenFlushes (command : List Char)
    (stream : List (Except Unit (List Char))) :
    writesOf (sendTrace command stream) = [command ++ ['\r']] ∧
    (sendTrace command stream).take 2 =
      [SerialEvent.write (command ++ ['\r']), SerialEvent.flush] ∧
    ∀ e ∈ (sendTrace command stream).drop 2, ∃ r, e = SerialEvent.read r := by
  refine ⟨?_, rfl, ?_⟩
  · show (command ++ ['\r']) :: writesOf (readUntilOkEvents stream) = _
    rw [writesOf_readUntilOkEvents]
  · intro e he
    exact readUntilOkEvents_allReads stream e (by simpa [sendTrace] using he)

/-! ## Claim theorems: the device locator -/

/-- C8: once the discovery loop has matched a candidate, `get_serial_port`
opens it at 9600 baud with a 1-second timeout; if that open fails, the
process aborts with a panic whose diagnostic message contains the port name,
instead of continuing or retrying. -/
theorem matchedCandidateOpenedOrFatal (device : Option (List Char))
    (scans : List (Except Unit (List SerialPortInfo))) (openOk : List Char → Bool)
    (portInfo : SerialPortInfo) (sleeps : List Nat)
    (h : getSerialPortLoop device scans = some (portInfo, sleeps)) :
    (openOk portInfo.portName = true →
      getSerialPort device scans openOk =
        some (LocateOutcome.opened ⟨portInfo.portName, 9600, 1⟩, sleeps)) ∧
    (openOk portInfo.portName = false →
      getSerialPort device scans openOk =
        some (LocateOutcome.panicked (couldNotCreateMsg portInfo.portName), sleeps) ∧
      containsSub portInfo.portName (couldNotCreateMsg portInfo.portName) = true) := by
  constructor
  · intro ho
    rw [getSerialPort, h]
    simp [ho]
  · intro ho
    refine ⟨?_, ?_⟩
    · rw [getSerialPort, h]
      simp [ho]
    · rw [containsSub_correct, couldNotCreateMsg]
      exact (List.suffix_append _ _).isInfix

/-- C8 witness: a matched explicit-name candidate whose open fails panics
with a message naming the port. -/
theorem matchedCandidateOpenedOrFatal_witness :
    getSerialPort (some ['x']) [Except.ok [⟨['x'], SerialPortType.pciPort⟩]]
        (fun _ => false) =
      some (LocateOutcome.panicked (couldNotCreateMsg ['x']), []) ∧
    containsSub ['x'] (couldNotCreateMsg ['x']) = true :=
  (matchedCandidateOpenedOrFatal (some ['x'])
    [Except.ok [⟨['x'], SerialPortType.pciPort⟩]] (fun _ => false)
    ⟨['x'], SerialPortType.pciPort⟩ [] (by decide)).2 (by decide)

theorem getSerialPortLoop_none_iff (device : Option (List Char))
    (scans : List (Except Unit (List SerialPortInfo))) :
    getSerialPortLoop device scans = none ↔
      ∀ scan ∈ scans, (unwrapOrDefault scan).find? (portFilter device) = none := by
  induction scans with
  | nil => simp [getSerialPortLoop]
  | cons scan rest ih =>
    rw [getSerialPortLoop]
    cases hf : (unwrapOrDefault scan).find? (portFilter device) with
    | some portInfo =>
      constructor
      · intro h
        exact absurd h (by simp)
      · intro h
        exact absurd (h scan (List.mem_cons_self scan rest)) (by simp [hf])
    | none =>
      rw [Option.map_eq_none', ih]
      constructor
      · intro h s hs
        rcases List.mem_cons.mp hs with h1 | h1
        · rw [h1]
          exact hf
        · exact h s h1
      · intro h s hs
        exact h s (List.mem_cons_of_mem scan hs)

/-- C9: a scan that finds no match is never an error and never returns: the
loop sleeps the fixed 1-second interval once per failed scan (no maximum
attempt count) and rescans, and it produces a result exactly when some scan
matches — after `k` all-failing scans followed by a matching one, it returns
that scan's first match, having slept `k` times 1 second. -/
theorem discoverySleepsAndRescansUntilMatch (device : Option (List Char))
    (failedScans : List (Except Unit (List SerialPortInfo)))
    (goodScan : Except Unit (List SerialPortInfo))
    (rest : List (Except Unit (List SerialPortInfo))) (portInfo : SerialPortInfo)
    (hfail : ∀ scan ∈ failedScans,
      (unwrapOrDefault scan).find? (portFilter device) = none)
    (hgood : (unwrapOrDefault goodScan).find? (portFilter device) = some portInfo) :
    getSerialPortLoop device (failedScans ++ goodScan :: rest) =
      some (portInfo, List.replicate failedScans.length retrySleepSecs) ∧
    (∀ scans, getSerialPortLoop device scans = none ↔
      ∀ scan ∈ scans, (unwrapOrDefault scan).find? (portFilter device) = none) := by
  refine ⟨?_, fun scans => getSerialPortLoop_none_iff device scans⟩
  induction failedScans with
  | nil =>
    rw [List.nil_append, getSerialPortLoop, hgood]
    rfl
  | cons scan restFailed ih =>
    have h1 : (unwrapOrDefault scan).find? (portFilter device) = none :=
      hfail scan (by simp)
    rw [List.cons_append, getSerialPortLoop, h1,
      ih (fun s hs => hfail s (by simp [hs]))]
    rfl

/-- C9 witness: one failed scan (an enumeration error), then a scan exposing a
USB EiBotBoard endpoint. -/
theorem discoverySleepsAndRescansUntilMatch_witness :
    getSerialPortLoop none
        [Except.error (),
         Except.ok [⟨['p'], SerialPortType.usbPort ⟨1, 2, none, none,
           some eiBotBoardMarker⟩⟩]] =
      some (⟨['p'], SerialPortType.usbPort ⟨1, 2, none, none, some eiBotBoardMarker⟩⟩,
        List.replicate 1 retrySleepSecs) ∧
    (∀ scans, getSerialPortLoop none scans = none ↔
      ∀ scan ∈ scans, (unwrapOrDefault scan).find? (portFilter none) = none) := by
  have h := discoverySleepsAndRescansUntilMatch none [Except.error ()]
    (Except.ok [⟨['p'], SerialPortType.usbPort ⟨1, 2, none, none,
      some eiBotBoardMarker⟩⟩]) []
    ⟨['p'], SerialPortType.usbPort ⟨1, 2, none, none, some eiBotBoardMarker⟩⟩
    (by decide) (by decide)
  exact ⟨h.1, h.2⟩

/-- C10: when enumerating serial ports itself fails, the locator behaves
exactly as on a scan that found no endpoints: the error-headed scan list and
the empty-scan-headed list give the same loop result, namely continuing with
the remaining scans after one more sleep; the enumeration error is never
surfaced and never aborts the loop. -/
theorem enumerationErrorLikeEmptyScan (device : Option (List Char))
    (rest : List (Except Unit (List SerialPortInfo))) :
    getSerialPortLoop device (Except.error () :: rest) =
      getSerialPortLoop device (Except.ok [] :: rest) ∧
    getSerialPortLoop device (Except.error () :: rest) =
      (getSerialPortLoop device rest).map
        (fun found => (found.1, retrySleepSecs :: found.2)) :=
  ⟨rfl, rfl⟩

end AxidrawOverTcp
